import Mathlib

/-!
Verification of the queue-draining and idle-triggered refill controller of
`scrapy_redis/spiders.py` (class `RedisMixin` and its two spider subclasses).

The embedding is shallow: the Redis list/zset commands used by the two pop
helpers are modelled with Python-integer (possibly negative) indices exactly
as Redis defines them; the generator `next_requests` is modelled as a
recursive function whose output records the emitted work units, the running
`found` counter, the items skipped with a debug log, whether the final
summary log ran, and an optional propagated exception; `setup_redis` is a
pure transition on an explicit mixin-state record that counts opened
connections and idle-signal registrations.
-/

namespace ScrapyRedis

/-- Redis range semantics shared by LRANGE / LTRIM / ZREVRANGE /
ZREMRANGEBYRANK: `start` and `stop` are 0-based, inclusive, and negative
values count from the end of the collection; out-of-range indices are
clamped; an empty range yields the empty list. -/
def redisRange {α : Type} (l : List α) (start stop : Int) : List α :=
  let len : Int := l.length
  let s : Int := if start < 0 then max (len + start) 0 else start
  let e : Int := min (if stop < 0 then len + stop else stop) (len - 1)
  if s > e then [] else (l.take (e.toNat + 1)).drop s.toNat

/-- The complement of `redisRange`: removes the elements whose rank lies in
the (normalized) `[start, stop]` range and keeps the rest, as
ZREMRANGEBYRANK does. -/
def redisRemoveRange {α : Type} (l : List α) (start stop : Int) : List α :=
  let len : Int := l.length
  let s : Int := if start < 0 then max (len + start) 0 else start
  let e : Int := min (if stop < 0 then len + stop else stop) (len - 1)
  if s > e then l else l.take s.toNat ++ l.drop (e.toNat + 1)

/-- LRANGE key start stop. -/
def lrange {α : Type} (l : List α) (start stop : Int) : List α :=
  redisRange l start stop

/-- LTRIM key start stop: the list is trimmed so that only the elements of
the (normalized) range remain. -/
def ltrim {α : Type} (l : List α) (start stop : Int) : List α :=
  redisRange l start stop

/-- A Redis sorted set is modelled as an association list of members and
integer scores kept sorted by ascending score (ascending rank order), which
is the data model ZREVRANGE and ZREMRANGEBYRANK operate on. -/
abbrev ZSet (α : Type) : Type := List (α × Int)

/-- ZREVRANGE key start stop: members in descending-score order, restricted
to the (normalized) rank range; the Python client returns members without
scores. -/
def zrevrange {α : Type} (z : ZSet α) (start stop : Int) : List α :=
  (redisRange z.reverse start stop).map Prod.fst

/-- ZREMRANGEBYRANK key start stop: removes the members whose ascending
rank lies in the (normalized) range. -/
def zremrangebyrank {α : Type} (z : ZSet α) (start stop : Int) : ZSet α :=
  redisRemoveRange z start stop

/-- `RedisMixin.pop_list_queue`: one pipeline issuing
`lrange(key, 0, batch_size - 1)` then `ltrim(key, batch_size, -1)`; the
first component is the returned batch, the second the list left in the
store. -/
def pop_list_queue {α : Type} (store : List α) (batch_size : Int) :
    List α × List α :=
  (lrange store 0 (batch_size - 1), ltrim store batch_size (-1))

/-- `RedisMixin.pop_priority_queue`: one pipeline issuing
`zrevrange(key, 0, batch_size - 1)` then
`zremrangebyrank(key, -batch_size, -1)`; the first component is the
returned batch, the second the sorted set left in the store. -/
def pop_priority_queue {α : Type} (z : ZSet α) (batch_size : Int) :
    List α × ZSet α :=
  (zrevrange z 0 (batch_size - 1), zremrangebyrank z (-batch_size) (-1))

/-- Result of `make_request_from_data` as `next_requests` discriminates it:
a Python `None` (falsy, not iterable), a single `Request` (truthy, not
iterable), or an iterable of requests (the `isinstance(reqs, Iterable)`
branch, checked first). -/
inductive ReqResult (W : Type) where
  | nothing : ReqResult W
  | single : W → ReqResult W
  | iter : List W → ReqResult W

/-- The work units a decode result contributes to the generator output. -/
def ReqResult.expand {W : Type} : ReqResult W → List W
  | .nothing => []
  | .single w => [w]
  | .iter l => l

/-- Whether the decode result is the falsy, non-iterable `None` branch that
`next_requests` logs at debug level and skips. -/
def ReqResult.isNothing {W : Type} : ReqResult W → Bool
  | .nothing => true
  | _ => false

/-- `RedisMixin.make_request_from_data`: decode the raw bytes under the
configured encoding (`bytes_to_str`, which raises on undecodable input),
then build the request(s) from the resulting URL string.
`bytes_to_str` lives in `utils.py`, which is not part of the sources here;
it is passed in as a fallible decoding function, and
`make_requests_from_url` (supplied by the surrounding Scrapy spider) as
the construction step. -/
def make_request_from_data {R W E : Type} (bytes_to_str : R → Except E String)
    (make_requests_from_url : String → ReqResult W) (data : R) :
    Except E (ReqResult W) :=
  match bytes_to_str data with
  | .error e => .error e
  | .ok url => .ok (make_requests_from_url url)

/-- Running state of the `for data in datas` loop of `next_requests`: the
work units yielded so far in order, the `found` counter, the items that
hit the `else` branch (logged at debug level and skipped) in order, and
the exception raised by `make_request_from_data`, if any — at which point
the generator stops, keeping what was already yielded. -/
structure LoopOut (R W E : Type) where
  emitted : List W
  found : Nat
  skipped : List R
  err : Option E
deriving DecidableEq

/-- The `for data in datas` loop of `next_requests`, run to completion. -/
def processData {R W E : Type} (mk : R → Except E (ReqResult W)) :
    List R → LoopOut R W E
  | [] => ⟨[], 0, [], none⟩
  | d :: rest =>
    match mk d with
    | .error e => ⟨[], 0, [], some e⟩
    | .ok r =>
      let p := processData mk rest
      match r with
      | .nothing => ⟨p.emitted, p.found, d :: p.skipped, p.err⟩
      | .single w => ⟨w :: p.emitted, p.found + 1, p.skipped, p.err⟩
      | .iter l => ⟨l ++ p.emitted, p.found + l.length, p.skipped, p.err⟩

/-- Observable outcome of one fully consumed `next_requests` call. -/
structure DrainOut (R W E : Type) where
  emitted : List W
  found : Nat
  skipped : List R
  summaryLogged : Bool
  err : Option E
deriving DecidableEq

/-- `RedisMixin.next_requests`, fully consumed: performs exactly one
`fetch_data` call against the store, processes each returned item in
order, and logs the Read-N-requests summary line only
when the loop finished and `found` is nonzero. The store is threaded
explicitly: `pop` is the bound `fetch_data` strategy. -/
def next_requests {σ R W E : Type} (pop : σ → List R × σ)
    (mk : R → Except E (ReqResult W)) (store : σ) : DrainOut R W E × σ :=
  let (datas, store') := pop store
  let p := processData mk datas
  (⟨p.emitted, p.found, p.skipped, p.found != 0 && p.err.isNone, p.err⟩, store')

/-- `RedisMixin.start_requests`: returns `self.next_requests()`. -/
def start_requests {σ R W E : Type} (pop : σ → List R × σ)
    (mk : R → Except E (ReqResult W)) (store : σ) : DrainOut R W E × σ :=
  next_requests pop mk store

/-- `RedisMixin.schedule_next_requests`: consumes `next_requests` and hands
each produced request to `crawler.engine.crawl`; the first component is
the list of requests crawled, in order, and the last an exception
propagating out of the generator, if any. -/
def schedule_next_requests {σ R W E : Type} (pop : σ → List R × σ)
    (mk : R → Except E (ReqResult W)) (store : σ) : List W × σ × Option E :=
  let (out, store') := next_requests pop mk store
  (out.emitted, store', out.err)

/-- What the `spider_idle` callback terminates with: the unconditional
`raise DontCloseSpider` at its end, unless an exception escaped
`schedule_next_requests` first. -/
inductive IdleOutcome (E : Type) where
  | dontCloseSpider : IdleOutcome E
  | errorRaised : E → IdleOutcome E
deriving DecidableEq

/-- `RedisMixin.spider_idle`: calls `schedule_next_requests()`, then raises
`DontCloseSpider`. -/
def spider_idle {σ R W E : Type} (pop : σ → List R × σ)
    (mk : R → Except E (ReqResult W)) (store : σ) :
    List W × σ × IdleOutcome E :=
  let (crawled, store', err) := schedule_next_requests pop mk store
  match err with
  | some e => (crawled, store', .errorRaised e)
  | none => (crawled, store', .dontCloseSpider)

/-- The crawler settings that `setup_redis` reads: each optional field is
`none` when the setting is absent, in which case the `get`/`getint`/
`getbool` default applies. `getint` on a configured setting is modelled as
already yielding an integer. -/
structure Settings where
  redis_start_urls_key : Option String
  redis_start_urls_batch_size : Option Int
  concurrent_requests : Int
  redis_encoding : Option String
  redis_start_urls_as_set : Option Bool
  redis_start_urls_as_zset : Option Bool

/-- The crawler collaborator: only its settings are consumed by
`setup_redis` (the signal registration is counted on the mixin state). -/
structure Crawler where
  settings : Settings

/-- Modelled from the spec: the `defaults` module is imported by
`spiders.py` but is not among the sources here; §6 of the spec gives the
queue-name template default `"<name>:start_urls"`. -/
def defaults_START_URLS_KEY : String := "%(name)s:start_urls"

/-- Modelled from the spec: default encoding `"utf-8"` (§6). -/
def defaults_REDIS_ENCODING : String := "utf-8"

/-- Modelled from the spec: use-set-mode defaults to false (§6). -/
def defaults_START_URLS_AS_SET : Bool := false

/-- Modelled from the spec: use-priority-mode defaults to false (§6). -/
def defaults_START_URLS_AS_ZSET : Bool := false

/-- The value held by `redis_batch_size` before coercion: Python `int(x)`
succeeds on an int or a numeric string and raises `TypeError`/`ValueError`
otherwise. -/
inductive BatchVal where
  | intVal : Int → BatchVal
  | numStr : Int → BatchVal
  | badVal : BatchVal
deriving DecidableEq

/-- Python `int(x)` as used in `setup_redis`: `none` when it raises. -/
def BatchVal.toIntOpt : BatchVal → Option Int
  | .intVal n => some n
  | .numStr n => some n
  | .badVal => none

/-- The three values `self.fetch_data` can be bound to. -/
inductive FetchStrategy where
  | spopStrategy : FetchStrategy
  | priorityStrategy : FetchStrategy
  | listStrategy : FetchStrategy
deriving DecidableEq

/-- The instance attributes of `RedisMixin` that `setup_redis` reads and
writes, plus two effect counters: how many times the connection factory
ran (`connection.from_settings`) and how many times the `spider_idle`
callback was registered (`crawler.signals.connect`). `server` records
whether the Redis client placeholder is non-`None`. -/
structure MixinState where
  name : String
  redis_key : Option String
  redis_batch_size : Option BatchVal
  redis_encoding : Option String
  server : Bool
  crawler : Option Crawler
  fetch_data : Option FetchStrategy
  connectionsOpened : Nat
  idleRegistrations : Nat

/-- Substitution of each occurrence of the `%(name)s` placeholder, left to
right, over the character list of the template. -/
def substChars (name : List Char) : List Char → List Char
  | [] => []
  | '%' :: '(' :: 'n' :: 'a' :: 'm' :: 'e' :: ')' :: 's' :: rest =>
    name ++ substChars name rest
  | c :: rest => c :: substChars name rest

/-- The % formatting applied to `self.redis_key` with the spider name under
the name key: substitutes the `%(name)s` placeholder. -/
def substName (template name : String) : String :=
  ⟨substChars name.data template.data⟩

/-- Python falsiness of `key.strip()`: the string is empty or consists
solely of whitespace. -/
def isBlank (s : String) : Bool :=
  s.data.all Char.isWhitespace

/-- The crawler `setup_redis` ends up using: the optional argument, else
the crawler attribute of the instance, when attached. -/
def resolveCrawler (st : MixinState) (crawler : Option Crawler) :
    Option Crawler :=
  match crawler with
  | some c => some c
  | none => st.crawler

/-- The resolved queue key: the instance override when set, else the
configured `REDIS_START_URLS_KEY`, else the default template, with the
name placeholder substituted. -/
def resolveKey (st : MixinState) (s : Settings) : String :=
  substName
    (match st.redis_key with
      | some k => k
      | none => s.redis_start_urls_key.getD defaults_START_URLS_KEY)
    st.name

/-- The batch-size value present after the `if self.redis_batch_size is
None` default step and before the `int(...)` coercion: `getint` on
`REDIS_START_URLS_BATCH_SIZE` falling back to `CONCURRENT_REQUESTS`. -/
def resolveBatch (st : MixinState) (s : Settings) : BatchVal :=
  match st.redis_batch_size with
  | some b => b
  | none => .intVal (s.redis_start_urls_batch_size.getD s.concurrent_requests)

/-- The resolved `REDIS_START_URLS_AS_SET` flag. -/
def asSetFlag (s : Settings) : Bool :=
  s.redis_start_urls_as_set.getD defaults_START_URLS_AS_SET

/-- The resolved `REDIS_START_URLS_AS_ZSET` flag. -/
def asZsetFlag (s : Settings) : Bool :=
  s.redis_start_urls_as_zset.getD defaults_START_URLS_AS_ZSET

/-- The `ValueError`s `setup_redis` can raise. -/
inductive SetupError where
  | crawlerRequired : SetupError
  | emptyRedisKey : SetupError
  | batchSizeNotInt : SetupError
deriving DecidableEq

/-- `RedisMixin.setup_redis`: returns the mixin state as mutated so far
together with the raised error, if any. Mirrors the source order: the
`server is not None` early return; crawler fallback and `ValueError`;
queue-key default, placeholder substitution and emptiness check (the
substituted key is written back before the check, as in the source);
batch-size default then `int(...)` coercion; encoding default; opening the
connection; choosing `fetch_data` (set-mode first, then zset-mode, else
list); registering the `spider_idle` signal. -/
def setup_redis (st : MixinState) (crawler : Option Crawler) :
    MixinState × Option SetupError :=
  if st.server then (st, none)
  else
    match resolveCrawler st crawler with
    | none => (st, some .crawlerRequired)
    | some c =>
      let key := resolveKey st c.settings
      let st1 := { st with redis_key := some key }
      if isBlank key then (st1, some .emptyRedisKey)
      else
        let bval := resolveBatch st c.settings
        let st2 := { st1 with redis_batch_size := some bval }
        match bval.toIntOpt with
        | none => (st2, some .batchSizeNotInt)
        | some n =>
          let st3 := { st2 with redis_batch_size := some (.intVal n) }
          let st4 := { st3 with
            redis_encoding := some (st3.redis_encoding.getD
              (c.settings.redis_encoding.getD defaults_REDIS_ENCODING)) }
          let st5 := { st4 with
            server := true
            connectionsOpened := st4.connectionsOpened + 1 }
          let strat : FetchStrategy :=
            if asSetFlag c.settings then .spopStrategy
            else if asZsetFlag c.settings then .priorityStrategy
            else .listStrategy
          let st6 := { st5 with fetch_data := some strat }
          ({ st6 with idleRegistrations := st6.idleRegistrations + 1 }, none)

/-! Helper lemmas about the Redis range primitives. -/

theorem redisRange_nil {α : Type} (start stop : Int) :
    redisRange ([] : List α) start stop = [] := by
  simp only [redisRange]
  split <;> simp

theorem redisRemoveRange_nil {α : Type} (start stop : Int) :
    redisRemoveRange ([] : List α) start stop = [] := by
  simp only [redisRemoveRange]
  split <;> simp

/-- A range request from index 0 whose upper bound covers the whole list
returns the whole list. -/
theorem redisRange_all {α : Type} (l : List α) (b : Int) (hb : 0 ≤ b)
    (hl : (l.length : Int) ≤ b) : redisRange l 0 (b - 1) = l := by
  cases l with
  | nil => exact redisRange_nil 0 (b - 1)
  | cons a t =>
    have hpos : 1 ≤ (a :: t).length := by simp
    have hb1 : 1 ≤ b := by omega
    simp only [redisRange]
    rw [if_neg (by omega : ¬ ((0:Int) < 0)),
        if_neg (by omega : ¬ (b - 1 < 0))]
    have hm : min (b - 1) (((a :: t).length : Int) - 1)
        = ((a :: t).length : Int) - 1 := by omega
    rw [hm, if_neg (by omega : ¬ ((0:Int) > ((a :: t).length : Int) - 1))]
    have ht : (((a :: t).length : Int) - 1).toNat + 1 = (a :: t).length := by
      omega
    rw [ht]
    simp

/-- A range request starting at or past the length of the list is empty. -/
theorem redisRange_tail_empty {α : Type} (l : List α) (b : Int) (hb : 0 ≤ b)
    (hl : (l.length : Int) ≤ b) : redisRange l b (-1) = [] := by
  simp only [redisRange]
  rw [if_neg (by omega : ¬ (b < 0)), if_pos (by omega : (-1 : Int) < 0)]
  rw [if_pos (by omega :
    b > min ((l.length : Int) + -1) ((l.length : Int) - 1))]

/-- Removing the rank range `[-b, -1]` from a collection of at most `b`
elements removes everything. -/
theorem redisRemoveRange_head_empty {α : Type} (l : List α) (b : Int)
    (hb : 0 ≤ b) (hl : (l.length : Int) ≤ b) :
    redisRemoveRange l (-b) (-1) = [] := by
  cases l with
  | nil => exact redisRemoveRange_nil (-b) (-1)
  | cons a t =>
    have hpos : 1 ≤ (a :: t).length := by simp
    have hb1 : 1 ≤ b := by omega
    simp only [redisRemoveRange]
    rw [if_pos (by omega : (-b : Int) < 0),
        if_pos (by omega : (-1 : Int) < 0)]
    have hs : max (((a :: t).length : Int) + -b) 0 = 0 := by omega
    have hm : min (((a :: t).length : Int) + -1)
        (((a :: t).length : Int) - 1) = ((a :: t).length : Int) - 1 := by
      omega
    rw [hs, hm, if_neg (by omega : ¬ ((0:Int) > ((a :: t).length : Int) - 1))]
    have ht : (((a :: t).length : Int) - 1).toNat + 1 = (a :: t).length := by
      omega
    rw [ht]
    simp

theorem pop_list_queue_nil {α : Type} (b : Int) :
    pop_list_queue ([] : List α) b = ([], []) := by
  simp [pop_list_queue, lrange, ltrim, redisRange_nil]

/-! Helper lemmas about the drain loop. -/

/-- When every item decodes without raising, the loop emits the expansion
of every decode result in order, counts one per emitted unit, skips
exactly the rejected (falsy) results, and raises nothing. -/
theorem processData_ok_eq {R W E : Type} (mkT : R → ReqResult W)
    (datas : List R) :
    processData (E := E) (fun d => .ok (mkT d)) datas =
      ⟨datas.flatMap (fun d => (mkT d).expand),
       (datas.flatMap (fun d => (mkT d).expand)).length,
       datas.filter (fun d => (mkT d).isNothing),
       none⟩ := by
  induction datas with
  | nil => rfl
  | cons d rest ih =>
    simp only [processData, ih]
    cases h : mkT d <;>
      simp [ReqResult.expand, ReqResult.isNothing, List.filter_cons, h,
        Nat.add_comm]

/-- The loop finishes without raising exactly when no item raises. -/
theorem processData_err_none_iff {R W E : Type}
    (mk : R → Except E (ReqResult W)) (datas : List R) :
    (processData mk datas).err = none ↔
      ∀ d ∈ datas, ∀ e : E, mk d ≠ .error e := by
  induction datas with
  | nil => simp [processData]
  | cons d rest ih =>
    cases h : mk d with
    | error e => simp [processData, h]
    | ok r =>
      cases r <;> simp [processData, h, ih]

theorem make_request_from_data_error_iff {R W E : Type}
    (bts : R → Except E String) (mku : String → ReqResult W) (d : R)
    (e : E) :
    make_request_from_data bts mku d = .error e ↔ bts d = .error e := by
  cases h : bts d <;> simp [make_request_from_data, h]

/-! Concrete states used by the witnesses of the lifecycle theorems. -/

/-- Settings with nothing configured: every resolution falls back to the
defaults, with a concurrency setting of 16. -/
def sampleSettings : Settings := ⟨none, none, 16, none, none, none⟩

/-- Settings with both the set-mode and the priority-mode flags set. -/
def bothFlagsSettings : Settings := ⟨none, none, 16, none, some true, some true⟩

def sampleCrawler : Crawler := ⟨sampleSettings⟩

def bothFlagsCrawler : Crawler := ⟨bothFlagsSettings⟩

/-- A never-bound instance whose batch-size override cannot be coerced to
an integer. -/
def badBatchState : MixinState :=
  ⟨"sp", some "k", some .badVal, none, false, none, none, 0, 0⟩

/-- A never-bound instance with a valid key override and batch size. -/
def freshState : MixinState :=
  ⟨"sp", some "k", some (.intVal 4), none, false, none, none, 0, 0⟩

/-- An instance on which `setup_redis` has already completed. -/
def boundState : MixinState :=
  ⟨"sp", some "sp:start_urls", some (.intVal 16), some "utf-8", true, none,
    some .listStrategy, 1, 1⟩

/-! The claims. -/

/-- C1: for every non-negative batch size and every store holding at most
`batch_size` items under the queue name (n items, n ≤ batchSize), a single
fetch call returns exactly those n items — the whole list in order for
`pop_list_queue`, all members in descending rank order for
`pop_priority_queue` — and leaves the store empty: no item is returned
twice and no item is left behind. -/
theorem fetch_drains_store {α β : Type} (b : Int) (store : List α)
    (z : ZSet β) (hb : 0 ≤ b) (hs : (store.length : Int) ≤ b)
    (hz : (z.length : Int) ≤ b) :
    (pop_list_queue store b).1 = store ∧
    (pop_list_queue store b).2 = [] ∧
    (pop_priority_queue z b).1 = z.reverse.map Prod.fst ∧
    (pop_priority_queue z b).2 = [] := by
  refine ⟨?_, ?_, ?_, ?_⟩
  · exact redisRange_all store b hb hs
  · exact redisRange_tail_empty store b hb hs
  · show (redisRange z.reverse 0 (b - 1)).map Prod.fst = _
    rw [redisRange_all z.reverse b hb (by simpa using hz)]
  · exact redisRemoveRange_head_empty z b hb hz

theorem fetch_drains_store_witness :
    ((0 : Int) ≤ 2 ∧ (((["a", "b"] : List String).length : Int) ≤ 2) ∧
      ((([("x", (1 : Int))] : ZSet String).length : Int) ≤ 2)) ∧
    ((pop_list_queue (["a", "b"] : List String) 2).1 = ["a", "b"] ∧
      (pop_list_queue (["a", "b"] : List String) 2).2 = [] ∧
      (pop_priority_queue ([("x", (1 : Int))] : ZSet String) 2).1 =
        ([("x", (1 : Int))] : ZSet String).reverse.map Prod.fst ∧
      (pop_priority_queue ([("x", (1 : Int))] : ZSet String) 2).2 = []) :=
  ⟨⟨by decide, by decide, by decide⟩,
    fetch_drains_store 2 ["a", "b"] [("x", 1)] (by decide) (by decide)
      (by decide)⟩

/-- C2: the Fifo strategy pops from the front preserving insertion order:
on the list state a, b, c with batch size 2 the first fetch returns a then
b and leaves c; a second fetch returns c and leaves the list empty. -/
theorem fifo_preserves_insertion_order :
    pop_list_queue ["a", "b", "c"] 2 = (["a", "b"], ["c"]) ∧
    pop_list_queue ["c"] 2 = (["c"], []) :=
  ⟨rfl, rfl⟩

/-- C3: the PriorityDescending strategy returns items in descending score
order and removes exactly the returned members: on a sorted set holding
members with scores 1, 3, 5 and batch size 2, the fetch returns the
score-5 member then the score-3 member, and the store retains only the
score-1 member. -/
theorem priority_pops_descending :
    pop_priority_queue [("s1", (1 : Int)), ("s3", 3), ("s5", 5)] 2 =
      (["s5", "s3"], [("s1", 1)]) :=
  rfl

/-- C4 (amended): for every store state whose fetched items all decode
without raising — in particular for the empty store — `spider_idle` first
schedules exactly the drained work units and then raises the
DontCloseSpider shutdown veto, so an idle notification alone never lets
the engine finalize shutdown. -/
theorem spider_idle_vetoes_shutdown (σ R W E : Type) (pop : σ → List R × σ)
    (mk : R → Except E (ReqResult W)) (store : σ)
    (h : ∀ d ∈ (pop store).1, ∀ e : E, mk d ≠ .error e) :
    (spider_idle pop mk store).2.2 = IdleOutcome.dontCloseSpider ∧
    (spider_idle pop mk store).1 =
      (next_requests pop mk store).1.emitted := by
  have herr : (next_requests pop mk store).1.err = none := by
    rcases hps : pop store with ⟨datas, store'⟩
    simp only [next_requests, hps]
    exact (processData_err_none_iff mk datas).mpr (by
      intro d hd e
      exact h d (by rw [hps]; exact hd) e)
  simp [spider_idle, schedule_next_requests, herr]

theorem spider_idle_vetoes_shutdown_witness :
    (∀ d ∈ (pop_list_queue ([] : List String) 16).1, ∀ e : Unit,
        (Except.ok (ReqResult.single d) : Except Unit (ReqResult String)) ≠
          Except.error e) ∧
    ((spider_idle (fun s => pop_list_queue s 16)
        (fun d : String =>
          (Except.ok (ReqResult.single d) : Except Unit (ReqResult String)))
        ([] : List String)).2.2 = IdleOutcome.dontCloseSpider ∧
      (spider_idle (fun s => pop_list_queue s 16)
        (fun d : String =>
          (Except.ok (ReqResult.single d) : Except Unit (ReqResult String)))
        ([] : List String)).1 =
        (next_requests (fun s => pop_list_queue s 16)
          (fun d : String =>
            (Except.ok (ReqResult.single d) :
              Except Unit (ReqResult String)))
          ([] : List String)).1.emitted) :=
  ⟨by simp, spider_idle_vetoes_shutdown (List String) String String Unit
    (fun s => pop_list_queue s 16)
    (fun d : String =>
      (Except.ok (ReqResult.single d) : Except Unit (ReqResult String)))
    [] (by simp)⟩

/-- C4 (counterexample to the claim as stated): a store state holding one
item whose decoding raises makes `spider_idle` propagate that exception
instead of raising the DontCloseSpider veto. -/
theorem spider_idle_error_counterexample :
    (spider_idle (fun s => pop_list_queue s 16)
        (fun _ : String => (Except.error () : Except Unit (ReqResult String)))
        ["x"]).2.2 ≠ IdleOutcome.dontCloseSpider := by
  decide

/-- C5: `setup_redis` is idempotent on a bound instance: when the server
field is already set, a second call returns at once without opening a
second connection, without registering the idle callback again, and
without changing any resolved field. -/
theorem setup_redis_idempotent (st : MixinState) (c : Option Crawler)
    (h : st.server = true) : setup_redis st c = (st, none) := by
  simp [setup_redis, h]

theorem setup_redis_idempotent_witness :
    boundState.server = true ∧
    setup_redis boundState none = (boundState, none) :=
  ⟨rfl, setup_redis_idempotent boundState none rfl⟩

/-- C6: on a not-yet-bound instance, `setup_redis` raises exactly when no
crawler is supplied and none is attached, or the resolved queue name is
empty or whitespace-only after placeholder substitution, or the resolved
batch size cannot be coerced to an integer; and in every such case no
connection has been opened and no idle callback registered. -/
theorem setup_redis_error_cases (st : MixinState) (c : Option Crawler)
    (h : st.server = false) :
    ((setup_redis st c).2 ≠ none ↔
      (resolveCrawler st c = none ∨
        ∃ cr, resolveCrawler st c = some cr ∧
          (isBlank (resolveKey st cr.settings) = true ∨
            (resolveBatch st cr.settings).toIntOpt = none))) ∧
    ((setup_redis st c).2 ≠ none →
      (setup_redis st c).1.server = false ∧
      (setup_redis st c).1.connectionsOpened = st.connectionsOpened ∧
      (setup_redis st c).1.idleRegistrations = st.idleRegistrations) := by
  cases hc : resolveCrawler st c with
  | none => simp [setup_redis, h, hc]
  | some cr =>
    by_cases hk : isBlank (resolveKey st cr.settings) = true
    · simp [setup_redis, h, hc, hk]
    · cases hbv : (resolveBatch st cr.settings).toIntOpt with
      | none => simp [setup_redis, h, hc, hk, hbv]
      | some n => simp [setup_redis, h, hc, hk, hbv]

theorem setup_redis_error_cases_witness :
    badBatchState.server = false ∧
    (((setup_redis badBatchState (some sampleCrawler)).2 ≠ none ↔
        (resolveCrawler badBatchState (some sampleCrawler) = none ∨
          ∃ cr, resolveCrawler badBatchState (some sampleCrawler) =
              some cr ∧
            (isBlank (resolveKey badBatchState cr.settings) = true ∨
              (resolveBatch badBatchState cr.settings).toIntOpt = none))) ∧
      ((setup_redis badBatchState (some sampleCrawler)).2 ≠ none →
        (setup_redis badBatchState (some sampleCrawler)).1.server = false ∧
        (setup_redis badBatchState
            (some sampleCrawler)).1.connectionsOpened =
          badBatchState.connectionsOpened ∧
        (setup_redis badBatchState
            (some sampleCrawler)).1.idleRegistrations =
          badBatchState.idleRegistrations)) :=
  ⟨rfl, setup_redis_error_cases badBatchState (some sampleCrawler) rfl⟩

/-- C7: the pop strategy is chosen at bind time from the two configuration
flags: set-mode selects SPOP regardless of the priority-mode flag (so
set-mode wins when both are true), otherwise priority-mode selects the
priority queue, otherwise the FIFO list queue. -/
theorem setup_redis_strategy (st : MixinState) (c : Option Crawler)
    (cr : Crawler) (h : st.server = false)
    (hc : resolveCrawler st c = some cr)
    (hk : isBlank (resolveKey st cr.settings) = false)
    (hb : (resolveBatch st cr.settings).toIntOpt ≠ none) :
    (asSetFlag cr.settings = true →
      (setup_redis st c).1.fetch_data = some FetchStrategy.spopStrategy) ∧
    (asSetFlag cr.settings = false → asZsetFlag cr.settings = true →
      (setup_redis st c).1.fetch_data =
        some FetchStrategy.priorityStrategy) ∧
    (asSetFlag cr.settings = false → asZsetFlag cr.settings = false →
      (setup_redis st c).1.fetch_data = some FetchStrategy.listStrategy) ∧
    (setup_redis st c).2 = none := by
  obtain ⟨n, hn⟩ := Option.ne_none_iff_exists'.mp hb
  refine ⟨?_, ?_, ?_, ?_⟩
  · intro h1
    simp [setup_redis, h, hc, hk, hn, h1]
  · intro h1 h2
    simp [setup_redis, h, hc, hk, hn, h1, h2]
  · intro h1 h2
    simp [setup_redis, h, hc, hk, hn, h1, h2]
  · simp [setup_redis, h, hc, hk, hn]

theorem setup_redis_strategy_witness :
    (freshState.server = false ∧
      resolveCrawler freshState (some bothFlagsCrawler) =
        some bothFlagsCrawler ∧
      isBlank (resolveKey freshState bothFlagsCrawler.settings) =
        false ∧
      (resolveBatch freshState bothFlagsCrawler.settings).toIntOpt ≠
        none) ∧
    ((asSetFlag bothFlagsCrawler.settings = true →
        (setup_redis freshState (some bothFlagsCrawler)).1.fetch_data =
          some FetchStrategy.spopStrategy) ∧
      (asSetFlag bothFlagsCrawler.settings = false →
          asZsetFlag bothFlagsCrawler.settings = true →
        (setup_redis freshState (some bothFlagsCrawler)).1.fetch_data =
          some FetchStrategy.priorityStrategy) ∧
      (asSetFlag bothFlagsCrawler.settings = false →
          asZsetFlag bothFlagsCrawler.settings = false →
        (setup_redis freshState (some bothFlagsCrawler)).1.fetch_data =
          some FetchStrategy.listStrategy) ∧
      (setup_redis freshState (some bothFlagsCrawler)).2 = none) :=
  ⟨⟨rfl, rfl, by decide, by decide⟩,
    setup_redis_strategy freshState (some bothFlagsCrawler)
      bothFlagsCrawler rfl rfl (by decide) (by decide)⟩

/-- C8: a fully consumed `next_requests` call performs exactly one fetch
(the final store is the store after one pop) and, when every item decodes
without raising: a falsy decode result is skipped with a debug log and the
count unchanged, a single result is emitted with the count up by one, a
sequence result has every element emitted in order with the count up by
one per element; the summary log runs exactly when the count is nonzero;
and on an empty FIFO store the call — and every repeated call — yields an
empty sequence and no error. -/
theorem next_requests_drain (σ R W E : Type) (pop : σ → List R × σ)
    (mkT : R → ReqResult W) (store : σ) (b : Int)
    (mk : R → Except E (ReqResult W)) :
    ((next_requests (E := E) pop (fun d => .ok (mkT d)) store).1.emitted =
        (pop store).1.flatMap (fun d => (mkT d).expand) ∧
      (next_requests (E := E) pop (fun d => .ok (mkT d)) store).1.found =
        (next_requests (E := E) pop
          (fun d => .ok (mkT d)) store).1.emitted.length ∧
      (next_requests (E := E) pop (fun d => .ok (mkT d)) store).1.skipped =
        (pop store).1.filter (fun d => (mkT d).isNothing) ∧
      (next_requests (E := E) pop (fun d => .ok (mkT d)) store).1.err =
        none ∧
      ((next_requests (E := E) pop
          (fun d => .ok (mkT d)) store).1.summaryLogged = true ↔
        (next_requests (E := E) pop
          (fun d => .ok (mkT d)) store).1.found ≠ 0) ∧
      (next_requests (E := E) pop (fun d => .ok (mkT d)) store).2 =
        (pop store).2) ∧
    next_requests (fun s => pop_list_queue s b) mk ([] : List R) =
      (⟨[], 0, [], false, none⟩, ([] : List R)) ∧
    next_requests (fun s => pop_list_queue s b) mk
        (next_requests (fun s => pop_list_queue s b) mk
          ([] : List R)).2 =
      (⟨[], 0, [], false, none⟩, ([] : List R)) := by
  refine ⟨?_, ?_, ?_⟩
  · rcases hps : pop store with ⟨datas, store'⟩
    simp [next_requests, hps, processData_ok_eq]
  · simp [next_requests, pop_list_queue_nil, processData]
  · simp [next_requests, pop_list_queue_nil, processData]

/-- C9: a fetched item whose bytes `bytes_to_str` cannot decode makes the
drain propagate the decode error to its caller (the drain ends without
error exactly when no fetched item fails to decode), while a successfully
decoded locator that `make_requests_from_url` rejects is skipped with a
debug log, never emitted, and never aborts the batch. -/
theorem decode_error_vs_rejection (σ R W E : Type) (pop : σ → List R × σ)
    (store : σ) (bts : R → Except E String) (mku : String → ReqResult W)
    (dec : R → String) :
    ((next_requests pop (make_request_from_data bts mku) store).1.err =
        none ↔
      ∀ d ∈ (pop store).1, ∀ e : E, bts d ≠ .error e) ∧
    (next_requests (E := E) pop
        (make_request_from_data (fun d => .ok (dec d)) mku)
        store).1.err = none ∧
    (next_requests (E := E) pop
        (make_request_from_data (fun d => .ok (dec d)) mku)
        store).1.skipped =
      (pop store).1.filter (fun d => (mku (dec d)).isNothing) ∧
    (next_requests (E := E) pop
        (make_request_from_data (fun d => .ok (dec d)) mku)
        store).1.emitted =
      (pop store).1.flatMap (fun d => (mku (dec d)).expand) := by
  have hmk : make_request_from_data (E := E) (fun d => .ok (dec d)) mku =
      fun d => .ok (mku (dec d)) := rfl
  rcases hps : pop store with ⟨datas, store'⟩
  refine ⟨?_, ?_⟩
  · simp only [next_requests, hps]
    rw [processData_err_none_iff]
    simp [make_request_from_data_error_iff]
  · rw [hmk]
    simp [next_requests, hps, processData_ok_eq]

/-- C10: `start_requests` returns exactly the sequence produced by
`next_requests`: the startup batch is drawn by the same single-fetch drain
logic that runs on every idle notification. -/
theorem start_requests_is_next_requests (σ R W E : Type)
    (pop : σ → List R × σ) (mk : R → Except E (ReqResult W)) (store : σ) :
    start_requests pop mk store = next_requests pop mk store :=
  rfl

end ScrapyRedis
